import Mathlib

/-!
Shallow embedding of the restaurant-booking API (`src/main.py`) and proofs
about its booking logic.

Modelling conventions:
* Database rows are Lean structures; the relational store is a `DB` record of
  lists (`users`, `tables`, `bookings`).
* `id`, `created_at` and other values produced nondeterministically by the
  code (`uuid.uuid4()`, `datetime.now()`) are passed as explicit parameters.
* Dates and times are the `String` values the code stores and compares: the
  SQL comparisons `start_time < $3` / `end_time > $4` on `HH:MM` text columns
  are embedded as lexicographic `String` order (`<`).
* Every `raise HTTPException` in the Python source happens before the
  mutating `execute`, so each operation is a total function returning the
  response (`Except ApiError α`) paired with the post-state; error paths
  return the unchanged input state, exactly as the code behaves.
-/

namespace Booking2Proof

/-- A row of the `users` table as selected by the endpoints
(`id, name, email, role, phone`). -/
structure User where
  id : String
  name : String
  email : String
  role : String
  phone : String
deriving Repr, DecidableEq

/-- A row of the `tables` table (`id, number, capacity, location`). -/
structure RTable where
  id : String
  number : Nat
  capacity : Nat
  location : Option String
deriving Repr, DecidableEq

/-- A row of the `bookings` table. -/
structure Booking where
  id : String
  user_id : String
  table_id : String
  date : String
  start_time : String
  end_time : String
  guests : Nat
  status : String
  created_at : String
deriving Repr, DecidableEq

/-- The relational store. -/
structure DB where
  users : List User
  tables : List RTable
  bookings : List Booking
deriving Repr, DecidableEq

/-- Request body `BookingCreate` (all fields required). -/
structure BookingCreate where
  table_id : String
  date : String
  start_time : String
  end_time : String
  guests : Nat
deriving Repr, DecidableEq

/-- Request body `BookingUpdate` (all fields optional). -/
structure BookingUpdate where
  table_id : Option String := none
  date : Option String := none
  start_time : Option String := none
  end_time : Option String := none
  guests : Option Nat := none
  status : Option String := none
deriving Repr, DecidableEq

/-- The `HTTPException`s raised by the booking endpoints, tagged by cause;
`statusCode` below recovers the HTTP status. -/
inductive ApiError where
  | notFound
  | capacityExceeded (capacity guests : Nat)
  | timeConflict (otherId : String)
  | forbidden
  | invalidStatus
  | noFields
deriving Repr, DecidableEq

/-- HTTP status code of each error, as in `src/main.py`. -/
def ApiError.statusCode : ApiError → Nat
  | .notFound => 404
  | .capacityExceeded _ _ => 400
  | .timeConflict _ => 409
  | .forbidden => 403
  | .invalidStatus => 400
  | .noFields => 400

/-- Lexicographic order on code points, comparing the character lists of two
strings: the text-column comparison `start_time < $3` / `end_time > $4`
performed by the SQL in `check_booking_conflict` on `HH:MM` strings. -/
def chLt : List Char → List Char → Bool
  | [], [] => false
  | [], _ :: _ => true
  | _ :: _, [] => false
  | a :: as, b :: bs =>
    if a.toNat < b.toNat then true
    else if b.toNat < a.toNat then false
    else chLt as bs

/-- Comparison `s < t` as the database compares the stored time strings. -/
def strLt (s t : String) : Bool := chLt s.data t.data

/-- Python truthiness of the optional `exclude_booking_id` argument:
the `AND id != $5` clause is appended only for a non-`None`, non-empty id. -/
def excludeClause (exclude_booking_id : Option String) (b : Booking) : Bool :=
  match exclude_booking_id with
  | some x => if x.isEmpty then true else b.id != x
  | none => true

/-- Row predicate of the `check_booking_conflict` query: same table and date,
`start_time < end` AND `end_time > start` on the text columns, row not
`cancelled`, and the row is not the excluded booking. -/
def conflictsWith (table_id date start_time end_time : String)
    (exclude_booking_id : Option String) (b : Booking) : Bool :=
  b.table_id == table_id && b.date == date
    && strLt b.start_time end_time && strLt start_time b.end_time
    && b.status != "cancelled" && excludeClause exclude_booking_id b

/-- Function `check_booking_conflict` (src/main.py lines 428-454): first
booking row with the same table and date whose `[start,end)` interval
intersects the requested one, skipping `status = 'cancelled'` rows and,
when requested, the excluded booking id. -/
def check_booking_conflict (bookings : List Booking)
    (table_id date start_time end_time : String)
    (exclude_booking_id : Option String) : Option Booking :=
  bookings.find?
    (conflictsWith table_id date start_time end_time exclude_booking_id)

/-- Query `SELECT ... FROM tables WHERE id = $1` (first row). -/
def findTable (db : DB) (table_id : String) : Option RTable :=
  db.tables.find? (fun t => t.id == table_id)

/-- Query `SELECT * FROM bookings WHERE id = $1` (first row). -/
def findBooking (db : DB) (booking_id : String) : Option Booking :=
  db.bookings.find? (fun b => b.id == booking_id)

/-- Query `SELECT ... FROM users WHERE id = $1` (first row). -/
def findUser (db : DB) (user_id : String) : Option User :=
  db.users.find? (fun u => u.id == user_id)

/-- The row inserted by a successful create: owned by the caller, the
requested table/date/times/guests, `status = 'confirmed'`. -/
def newBooking (user : User) (booking : BookingCreate)
    (booking_id created_at : String) : Booking :=
  { id := booking_id, user_id := user.id, table_id := booking.table_id,
    date := booking.date, start_time := booking.start_time,
    end_time := booking.end_time, guests := booking.guests,
    status := "confirmed", created_at := created_at }

/-- Endpoint `create_booking` (src/main.py lines 497-554, the store mutation):
404 if the table does not resolve, 400 if `guests > capacity`, 409 on a
time conflict, otherwise insert a `confirmed` booking owned by the caller.
`booking_id` and `created_at` stand for `uuid.uuid4()` / `datetime.now()`. -/
def create_booking (db : DB) (user : User) (booking : BookingCreate)
    (booking_id created_at : String) : Except ApiError Booking × DB :=
  match findTable db booking.table_id with
  | none => (.error .notFound, db)
  | some table_row =>
    if booking.guests > table_row.capacity then
      (.error (.capacityExceeded table_row.capacity booking.guests), db)
    else
      match check_booking_conflict db.bookings booking.table_id booking.date
          booking.start_time booking.end_time none with
      | some conflict => (.error (.timeConflict conflict.id), db)
      | none =>
        let newB := newBooking user booking booking_id created_at
        (.ok newB, { db with bookings := db.bookings ++ [newB] })

/-- The `fields` dict of `update_booking` is non-empty: some recognized field
is present in the payload. -/
def hasAnyField (p : BookingUpdate) : Bool :=
  p.table_id.isSome || p.date.isSome || p.start_time.isSome
    || p.end_time.isSome || p.guests.isSome || p.status.isSome

/-- One of `table_id, date, start_time, end_time` is present: the condition
under which `update_booking` re-runs the conflict check. -/
def hasIntervalField (p : BookingUpdate) : Bool :=
  p.table_id.isSome || p.date.isSome || p.start_time.isSome || p.end_time.isSome

/-- A supplied `status` outside `{confirmed, cancelled}` fails validation. -/
def statusInvalid (p : BookingUpdate) : Bool :=
  match p.status with
  | some s => !(s == "confirmed" || s == "cancelled")
  | none => false

/-- The SQL `UPDATE bookings SET <present fields> WHERE id = ...` applied to
one row: present payload fields overwrite, absent fields keep the row's
stored value. -/
def applyFields (p : BookingUpdate) (b : Booking) : Booking :=
  { b with
    table_id := p.table_id.getD b.table_id,
    date := p.date.getD b.date,
    start_time := p.start_time.getD b.start_time,
    end_time := p.end_time.getD b.end_time,
    guests := p.guests.getD b.guests,
    status := p.status.getD b.status }

/-- The ownership check shared by `update_booking` and `delete_booking`:
`user["role"] not in ("admin", "staff") and existing["user_id"] != user["id"]`. -/
def ownershipDenied (user : User) (existing : Booking) : Bool :=
  user.role != "admin" && user.role != "staff" && existing.user_id != user.id

/-- Effect of `UPDATE bookings SET <present fields> WHERE id = $idx` on the
stored list: every row whose id matches gets the present fields written. -/
def appliedBookings (db : DB) (booking_id : String) (p : BookingUpdate) :
    List Booking :=
  db.bookings.map (fun b => if b.id == booking_id then applyFields p b else b)

/-- Endpoint `update_booking` (src/main.py lines 589-679, the store mutation):
404 unknown id; 403 for a non-admin/staff caller who is not the owner;
400 for an invalid `status` value or an empty field set; if any of
table/date/start/end is present, 409 when the merged values conflict with
another (non-excluded) booking; otherwise write the present fields. -/
def update_booking (db : DB) (booking_id : String) (booking : BookingUpdate)
    (user : User) : Except ApiError String × DB :=
  match findBooking db booking_id with
  | none => (.error .notFound, db)
  | some existing =>
    if ownershipDenied user existing then
      (.error .forbidden, db)
    else if statusInvalid booking then
      (.error .invalidStatus, db)
    else if !hasAnyField booking then
      (.error .noFields, db)
    else
      let check_table := booking.table_id.getD existing.table_id
      let check_date := booking.date.getD existing.date
      let check_start := booking.start_time.getD existing.start_time
      let check_end := booking.end_time.getD existing.end_time
      let applied : DB := { db with bookings := appliedBookings db booking_id booking }
      if hasIntervalField booking then
        match check_booking_conflict db.bookings check_table check_date
            check_start check_end (some booking_id) with
        | some conflict => (.error (.timeConflict conflict.id), db)
        | none => (.ok booking_id, applied)
      else
        (.ok booking_id, applied)

/-- Endpoint `delete_booking` (src/main.py lines 697-743, the store mutation):
404 unknown id; 403 for a non-admin/staff caller who is not the owner;
otherwise `DELETE FROM bookings WHERE id = $1`. The response carries the
deleted row (used afterwards for the notification text). -/
def delete_booking (db : DB) (booking_id : String) (user : User) :
    Except ApiError Booking × DB :=
  match findBooking db booking_id with
  | none => (.error .notFound, db)
  | some existing =>
    if ownershipDenied user existing then
      (.error .forbidden, db)
    else
      (.ok existing,
        { db with bookings := db.bookings.filter (fun b => !(b.id == booking_id)) })

/-! Notification dispatch (`src/sms_service.py` and the post-commit blocks of
the three booking endpoints). -/

/-- Environment/network outcome of one `send_sms` call, one constructor per
arm of the function: missing `SMSNOTIF_API_KEY`, `HTTPStatusError`,
`TimeoutException`, any other exception, or a successful JSON response. -/
inductive SmsOutcome where
  | missingApiKey
  | httpStatusError (code : Nat) (body : String)
  | timeout
  | otherError (msg : String)
  | success (responseJson : String)
deriving Repr, DecidableEq

/-- Function `send_sms` (src/sms_service.py lines 34-90): returns the parsed
response on success and `None` in every failure mode; each failure arm is
caught inside the function and logged, never raised to the caller. -/
def send_sms (outcome : SmsOutcome) : Option String :=
  match outcome with
  | .missingApiKey => none
  | .httpStatusError _ _ => none
  | .timeout => none
  | .otherError _ => none
  | .success r => some r

/-- What one awaited call does from the caller's point of view: return a
value, or raise an exception. -/
inductive PyCall (α : Type) where
  | ret (a : α)
  | exn (msg : String)
deriving Repr, DecidableEq

/-- The awaited notification expression: `send_sms`'s own return value when
it returns, or an exception raised out of the await. -/
def notifyCall (raised : Option String) (outcome : SmsOutcome) :
    PyCall (Option String) :=
  match raised with
  | some msg => .exn msg
  | none => .ret (send_sms outcome)

/-- The `try: await send_sms(...) except Exception as e: print(...)` block in
each booking endpoint: the returned value is discarded and a raised
exception is caught and logged. -/
def tryNotify (call : PyCall (Option String)) : Unit :=
  match call with
  | .ret _ => ()
  | .exn _ => ()

/-- Endpoint `create_booking` including its post-commit notification block
(src/main.py lines 556-573): the SMS is attempted only when the refetched
user row has a truthy phone, and its outcome never changes the response
or the store. -/
def create_booking_endpoint (db : DB) (user : User) (booking : BookingCreate)
    (booking_id created_at : String) (raised : Option String)
    (outcome : SmsOutcome) : Except ApiError Booking × DB :=
  let result := create_booking db user booking booking_id created_at
  let _notified : Unit :=
    match result with
    | (.ok _, db') =>
      match findUser db' user.id with
      | some row => if row.phone.isEmpty then () else tryNotify (notifyCall raised outcome)
      | none => ()
    | (.error _, _) => ()
  result

/-- Endpoint `update_booking` including its post-commit notification block
(src/main.py lines 681-693). -/
def update_booking_endpoint (db : DB) (booking_id : String)
    (booking : BookingUpdate) (user : User) (raised : Option String)
    (outcome : SmsOutcome) : Except ApiError String × DB :=
  let result := update_booking db booking_id booking user
  let _notified : Unit :=
    match result, findBooking db booking_id with
    | (.ok _, db'), some existing =>
      match findUser db' existing.user_id with
      | some row => if row.phone.isEmpty then () else tryNotify (notifyCall raised outcome)
      | none => ()
    | _, _ => ()
  result

/-- Endpoint `delete_booking` including its post-commit notification block
(src/main.py lines 729-741). -/
def delete_booking_endpoint (db : DB) (booking_id : String) (user : User)
    (raised : Option String) (outcome : SmsOutcome) :
    Except ApiError Booking × DB :=
  let result := delete_booking db booking_id user
  let _notified : Unit :=
    match result with
    | (.ok existing, db') =>
      match findUser db' existing.user_id with
      | some row => if row.phone.isEmpty then () else tryNotify (notifyCall raised outcome)
      | none => ()
    | (.error _, _) => ()
  result

/-! Access control (`get_current_user`, src/main.py lines 62-99). -/

/-- Claims carried by a login token (src/main.py line 217 embeds
`{"user_id": row["id"], "role": row["role"]}`); `user_id` is `none` when
the decoded payload has no such key. -/
structure TokenPayload where
  user_id : Option String
  role : String
deriving Repr, DecidableEq

/-- Outcome of `jwt.decode`: expired signature, otherwise invalid token, or
a decoded payload. -/
inductive DecodeResult where
  | expired
  | invalid
  | ok (payload : TokenPayload)
deriving Repr, DecidableEq

/-- The 401 responses of `get_current_user`, tagged by detail string. -/
inductive AuthError where
  | unauthorized (detail : String)
deriving Repr, DecidableEq

/-- Function `get_current_user` (src/main.py lines 62-99): reject expired or
invalid tokens and a missing/falsy `user_id` claim, then refetch the live
user row by id; the token's `role` claim is never read. -/
def get_current_user (decoded : DecodeResult) (users : List User) :
    Except AuthError User :=
  match decoded with
  | .expired => .error (.unauthorized "Token has expired")
  | .invalid => .error (.unauthorized "Invalid token")
  | .ok payload =>
    match payload.user_id with
    | none => .error (.unauthorized "Invalid token payload")
    | some uid =>
      if uid.isEmpty then .error (.unauthorized "Invalid token payload")
      else
        match users.find? (fun u => u.id == uid) with
        | none => .error (.unauthorized "User not found")
        | some row => .ok row

/-- An endpoint behind `Depends(get_current_user)`: the handler body runs on
the resolved live user row. -/
def withCurrentUser {α : Type} (decoded : DecodeResult) (users : List User)
    (handler : User → α) : Except AuthError α :=
  (get_current_user decoded users).map handler

/-! The global no-overlap invariant and the transition system generated by
the three booking operations. -/

/-- Two stored bookings clash when both are non-cancelled, on the same table
and date, and their `[start, end)` intervals intersect (the spec's strict
half-open test on both sides). -/
def Clashing (b1 b2 : Booking) : Prop :=
  b1.status ≠ "cancelled" ∧ b2.status ≠ "cancelled" ∧
    b1.table_id = b2.table_id ∧ b1.date = b2.date ∧
    strLt b1.start_time b2.end_time = true ∧ strLt b2.start_time b1.end_time = true

instance (b1 b2 : Booking) : Decidable (Clashing b1 b2) := by
  unfold Clashing; infer_instance

/-- The spec's global invariant: no two distinct stored bookings clash. -/
def NoOverlap (db : DB) : Prop :=
  ∀ b1 ∈ db.bookings, ∀ b2 ∈ db.bookings, b1.id ≠ b2.id → ¬ Clashing b1 b2

instance (db : DB) : Decidable (NoOverlap db) := by
  unfold NoOverlap; infer_instance

/-- Stored booking ids are pairwise distinct (primary-key uniqueness). -/
def IdsNodup (db : DB) : Prop :=
  (db.bookings.map Booking.id).Nodup

/-- The inductive invariant: key uniqueness together with no-overlap. -/
def Inv (db : DB) : Prop := IdsNodup db ∧ NoOverlap db

/-- One call of a booking operation, by any caller with any payload, as a
transition on the store; `create` assumes the generated uuid is fresh.
Error responses leave the store unchanged, so they are included. -/
inductive Step : DB → DB → Prop where
  | create (db : DB) (user : User) (p : BookingCreate)
      (booking_id created_at : String)
      (hfresh : booking_id ∉ db.bookings.map Booking.id) :
      Step db (create_booking db user p booking_id created_at).2
  | update (db : DB) (booking_id : String) (p : BookingUpdate) (user : User) :
      Step db (update_booking db booking_id p user).2
  | delete (db : DB) (booking_id : String) (user : User) :
      Step db (delete_booking db booking_id user).2

/-- States reachable from a store with no bookings by any sequence of
`create_booking`, `update_booking`, `delete_booking` calls. -/
inductive Reachable : DB → Prop where
  | init (users : List User) (tables : List RTable) :
      Reachable { users := users, tables := tables, bookings := [] }
  | step {db db' : DB} : Reachable db → Step db db' → Reachable db'

/-- An update payload reactivates silently when it touches none of
table/date/start/end yet sets `status` to `confirmed` on a booking whose
stored status is `cancelled` — the one shape of update on which
`update_booking` skips the conflict re-check while turning a cancelled
booking active again. -/
def SilentReactivation (db : DB) (booking_id : String) (p : BookingUpdate) : Prop :=
  hasIntervalField p = false ∧ p.status = some "confirmed" ∧
    ∃ b, findBooking db booking_id = some b ∧ b.status = "cancelled"

/-- Transitions restricted to updates that are not silent reactivations. -/
inductive GuardedStep : DB → DB → Prop where
  | create (db : DB) (user : User) (p : BookingCreate)
      (booking_id created_at : String)
      (hfresh : booking_id ∉ db.bookings.map Booking.id) :
      GuardedStep db (create_booking db user p booking_id created_at).2
  | update (db : DB) (booking_id : String) (p : BookingUpdate) (user : User)
      (hsafe : ¬ SilentReactivation db booking_id p) :
      GuardedStep db (update_booking db booking_id p user).2
  | delete (db : DB) (booking_id : String) (user : User) :
      GuardedStep db (delete_booking db booking_id user).2

/-- States reachable using only guarded transitions. -/
inductive GuardedReachable : DB → Prop where
  | init (users : List User) (tables : List RTable) :
      GuardedReachable { users := users, tables := tables, bookings := [] }
  | step {db db' : DB} : GuardedReachable db → GuardedStep db db' → GuardedReachable db'

/-! Basic lemmas about the conflict predicate. -/

lemma conflictsWith_eq_true_iff (tid d s e : String) (excl : Option String)
    (b : Booking) :
    conflictsWith tid d s e excl b = true ↔
      (b.table_id = tid ∧ b.date = d ∧ strLt b.start_time e = true ∧
        strLt s b.end_time = true ∧ b.status ≠ "cancelled" ∧
        excludeClause excl b = true) := by
  simp [conflictsWith, and_assoc]

lemma excludeClause_none (b : Booking) : excludeClause none b = true := rfl

lemma excludeClause_of_ne {x : String} {b : Booking} (h : b.id ≠ x) :
    excludeClause (some x) b = true := by
  unfold excludeClause
  by_cases hx : x.isEmpty <;> simp [hx, h]

lemma check_none_iff (bs : List Booking) (tid d s e : String)
    (excl : Option String) :
    check_booking_conflict bs tid d s e excl = none ↔
      ∀ b ∈ bs, conflictsWith tid d s e excl b = false := by
  unfold check_booking_conflict
  rw [List.find?_eq_none]
  simp

lemma check_isSome_iff (bs : List Booking) (tid d s e : String)
    (excl : Option String) :
    (check_booking_conflict bs tid d s e excl).isSome = true ↔
      ∃ b ∈ bs, conflictsWith tid d s e excl b = true := by
  unfold check_booking_conflict
  rw [List.find?_isSome]

lemma Clashing.symm {b1 b2 : Booking} (h : Clashing b1 b2) : Clashing b2 b1 := by
  obtain ⟨h1, h2, h3, h4, h5, h6⟩ := h
  exact ⟨h2, h1, h3.symm, h4.symm, h6, h5⟩

lemma no_clash_of_conflict_false {tid d s e : String} {excl : Option String}
    {m b : Booking}
    (hm_tab : m.table_id = tid) (hm_date : m.date = d)
    (hm_s : m.start_time = s) (hm_e : m.end_time = e)
    (hexcl : excludeClause excl b = true)
    (hfalse : conflictsWith tid d s e excl b = false) :
    ¬ Clashing m b := by
  intro hc
  obtain ⟨h1, h2, h3, h4, h5, h6⟩ := hc
  have : conflictsWith tid d s e excl b = true :=
    (conflictsWith_eq_true_iff tid d s e excl b).mpr
      ⟨h3.symm.trans hm_tab, h4.symm.trans hm_date, hm_e ▸ h6, hm_s ▸ h5, h2, hexcl⟩
  rw [hfalse] at this
  exact Bool.false_ne_true this

/-! Lemmas about update payload field classification. -/

lemma interval_fields_none {p : BookingUpdate} (h : hasIntervalField p = false) :
    p.table_id = none ∧ p.date = none ∧ p.start_time = none ∧ p.end_time = none := by
  unfold hasIntervalField at h
  cases hpt : p.table_id <;> cases hpd : p.date <;> cases hps : p.start_time <;>
    cases hpe : p.end_time <;> simp_all

lemma status_valid_of_not_invalid {p : BookingUpdate} {s : String}
    (hst : p.status = some s) (h : statusInvalid p = false) :
    s = "confirmed" ∨ s = "cancelled" := by
  unfold statusInvalid at h
  rw [hst] at h
  rw [or_iff_not_imp_left]
  simpa using h

lemma applyFields_id (p : BookingUpdate) (b : Booking) :
    (applyFields p b).id = b.id := rfl

lemma applyFields_user_id (p : BookingUpdate) (b : Booking) :
    (applyFields p b).user_id = b.user_id := rfl

lemma applyFields_created_at (p : BookingUpdate) (b : Booking) :
    (applyFields p b).created_at = b.created_at := rfl

/-! Lemmas about row lookup under key uniqueness. -/

lemma findBooking_some_id {db : DB} {bid : String} {existing : Booking}
    (hfind : findBooking db bid = some existing) : existing.id = bid := by
  have := List.find?_some hfind
  simpa using this

lemma findBooking_some_mem {db : DB} {bid : String} {existing : Booking}
    (hfind : findBooking db bid = some existing) : existing ∈ db.bookings :=
  List.mem_of_find?_eq_some hfind

lemma eq_existing_of_mem {db : DB} {bid : String} {existing : Booking}
    (hfind : findBooking db bid = some existing) (hnodup : IdsNodup db)
    {b : Booking} (hb : b ∈ db.bookings) (hid : b.id = bid) : b = existing :=
  List.inj_on_of_nodup_map hnodup hb (findBooking_some_mem hfind)
    (by rw [hid, findBooking_some_id hfind])

/-! Shape lemmas: the post-state of each operation is either the unchanged
input store or the mutated store of the success branch. -/

lemma create_snd_cases (db : DB) (u : User) (p : BookingCreate)
    (bid cat : String) :
    (create_booking db u p bid cat).2 = db ∨
      (check_booking_conflict db.bookings p.table_id p.date p.start_time
          p.end_time none = none ∧
        (create_booking db u p bid cat).2 =
          { db with bookings := db.bookings ++ [newBooking u p bid cat] }) := by
  unfold create_booking
  cases htab : findTable db p.table_id with
  | none => exact Or.inl rfl
  | some t =>
    by_cases hcap : p.guests > t.capacity
    · simp [hcap]
    · simp only [if_neg hcap]
      cases hchk : check_booking_conflict db.bookings p.table_id p.date
          p.start_time p.end_time none with
      | some c => exact Or.inl rfl
      | none => exact Or.inr ⟨rfl, rfl⟩

lemma update_snd_cases (db : DB) (bid : String) (p : BookingUpdate) (u : User) :
    (update_booking db bid p u).2 = db ∨
      (∃ existing, findBooking db bid = some existing ∧
        statusInvalid p = false ∧
        (update_booking db bid p u).2 =
          { db with bookings := appliedBookings db bid p } ∧
        (hasIntervalField p = true →
          check_booking_conflict db.bookings (p.table_id.getD existing.table_id)
            (p.date.getD existing.date) (p.start_time.getD existing.start_time)
            (p.end_time.getD existing.end_time) (some bid) = none)) := by
  unfold update_booking
  cases hfind : findBooking db bid with
  | none => exact Or.inl rfl
  | some existing =>
    dsimp only
    by_cases hden : ownershipDenied u existing = true
    · rw [if_pos hden]
      exact Or.inl rfl
    · rw [if_neg hden]
      by_cases hstat : statusInvalid p = true
      · rw [if_pos hstat]
        exact Or.inl rfl
      · rw [if_neg hstat]
        rw [Bool.not_eq_true] at hstat
        by_cases hany : hasAnyField p = true
        · rw [if_neg (by simp [hany] : ¬ ((!hasAnyField p) = true))]
          by_cases hint : hasIntervalField p = true
          · rw [if_pos hint]
            cases hchk : check_booking_conflict db.bookings
                (p.table_id.getD existing.table_id) (p.date.getD existing.date)
                (p.start_time.getD existing.start_time)
                (p.end_time.getD existing.end_time) (some bid) with
            | some c => exact Or.inl rfl
            | none => exact Or.inr ⟨existing, rfl, hstat, rfl, fun _ => hchk⟩
          · rw [if_neg hint]
            rw [Bool.not_eq_true] at hint
            exact Or.inr ⟨existing, rfl, hstat, rfl,
              fun h => absurd (hint ▸ h) Bool.false_ne_true⟩
        · rw [if_pos (by simp [Bool.not_eq_true] at hany; simp [hany] :
            (!hasAnyField p) = true)]
          exact Or.inl rfl

lemma delete_snd_cases (db : DB) (bid : String) (u : User) :
    (delete_booking db bid u).2 = db ∨
      (delete_booking db bid u).2 =
        { db with bookings := db.bookings.filter (fun b => !(b.id == bid)) } := by
  unfold delete_booking
  cases hfind : findBooking db bid with
  | none => exact Or.inl rfl
  | some existing =>
    dsimp only
    by_cases hden : ownershipDenied u existing = true
    · rw [if_pos hden]
      exact Or.inl rfl
    · rw [if_neg hden]
      exact Or.inr rfl

/-! Preservation of the inductive invariant. -/

lemma idsNodup_append_new {db : DB} {nb : Booking}
    (h : IdsNodup db) (hfresh : nb.id ∉ db.bookings.map Booking.id) :
    IdsNodup { db with bookings := db.bookings ++ [nb] } := by
  unfold IdsNodup at *
  simp only [List.map_append, List.map_cons, List.map_nil]
  rw [List.nodup_append]
  refine ⟨h, List.nodup_singleton _, ?_⟩
  intro a ha hmem
  rw [List.mem_singleton] at hmem
  exact hfresh (hmem ▸ ha)

lemma noOverlap_append_new {db : DB} {nb : Booking}
    (hno : NoOverlap db)
    (hclear : ∀ b ∈ db.bookings, ¬ Clashing nb b) :
    NoOverlap { db with bookings := db.bookings ++ [nb] } := by
  intro b1 h1 b2 h2 hne
  simp only [List.mem_append, List.mem_singleton] at h1 h2
  rcases h1 with h1 | rfl
  · rcases h2 with h2 | rfl
    · exact hno b1 h1 b2 h2 hne
    · exact fun hc => hclear b1 h1 hc.symm
  · rcases h2 with h2 | rfl
    · exact hclear b2 h2
    · exact absurd rfl hne

lemma create_preserves_inv {db : DB} (u : User) (p : BookingCreate)
    {bid : String} (cat : String)
    (hfresh : bid ∉ db.bookings.map Booking.id) (hinv : Inv db) :
    Inv (create_booking db u p bid cat).2 := by
  rcases create_snd_cases db u p bid cat with heq | ⟨hchk, heq⟩
  · rw [heq]; exact hinv
  · rw [heq]
    have hclear : ∀ b ∈ db.bookings, ¬ Clashing (newBooking u p bid cat) b := by
      intro b hb
      have hfalse := (check_none_iff _ _ _ _ _ _).mp hchk b hb
      exact no_clash_of_conflict_false rfl rfl rfl rfl (excludeClause_none b) hfalse
    exact ⟨idsNodup_append_new hinv.1 hfresh, noOverlap_append_new hinv.2 hclear⟩

lemma applied_elem_id (p : BookingUpdate) (bid : String) (b : Booking) :
    (if b.id == bid then applyFields p b else b).id = b.id := by
  by_cases h : (b.id == bid) = true <;> simp [h, applyFields_id]

lemma idsNodup_applied {db : DB} (bid : String) (p : BookingUpdate)
    (h : IdsNodup db) :
    IdsNodup { db with bookings := appliedBookings db bid p } := by
  unfold IdsNodup appliedBookings at *
  rw [List.map_map]
  have he : List.map (Booking.id ∘ fun b => if b.id == bid then applyFields p b else b)
      db.bookings = List.map Booking.id db.bookings :=
    List.map_congr_left (fun b _ => applied_elem_id p bid b)
  rw [he]
  exact h

lemma noOverlap_applied_checked {db : DB} {bid : String} {p : BookingUpdate}
    {existing : Booking}
    (hfind : findBooking db bid = some existing)
    (hnodup : IdsNodup db) (hno : NoOverlap db)
    (hchk : check_booking_conflict db.bookings (p.table_id.getD existing.table_id)
      (p.date.getD existing.date) (p.start_time.getD existing.start_time)
      (p.end_time.getD existing.end_time) (some bid) = none) :
    NoOverlap { db with bookings := appliedBookings db bid p } := by
  intro b1' h1 b2' h2 hne
  simp only [appliedBookings, List.mem_map] at h1 h2
  obtain ⟨b1, hb1, hb1e⟩ := h1
  obtain ⟨b2, hb2, hb2e⟩ := h2
  subst hb1e
  subst hb2e
  rw [applied_elem_id, applied_elem_id] at hne
  by_cases hc1 : (b1.id == bid) = true
  · have hb1ex : b1 = existing :=
      eq_existing_of_mem hfind hnodup hb1 (by simpa using hc1)
    by_cases hc2 : (b2.id == bid) = true
    · exact absurd (by rw [beq_iff_eq] at hc1 hc2; rw [hc1, hc2]) hne
    · rw [if_pos hc1, if_neg hc2]
      subst hb1ex
      have hfalse := (check_none_iff _ _ _ _ _ _).mp hchk b2 hb2
      have hexcl : excludeClause (some bid) b2 = true :=
        excludeClause_of_ne (fun h => hc2 (beq_iff_eq.mpr h))
      exact no_clash_of_conflict_false rfl rfl rfl rfl hexcl hfalse
  · by_cases hc2 : (b2.id == bid) = true
    · have hb2ex : b2 = existing :=
        eq_existing_of_mem hfind hnodup hb2 (by simpa using hc2)
      rw [if_neg hc1, if_pos hc2]
      subst hb2ex
      have hfalse := (check_none_iff _ _ _ _ _ _).mp hchk b1 hb1
      have hexcl : excludeClause (some bid) b1 = true :=
        excludeClause_of_ne (fun h => hc1 (beq_iff_eq.mpr h))
      exact fun hcl =>
        no_clash_of_conflict_false rfl rfl rfl rfl hexcl hfalse hcl.symm
    · rw [if_neg hc1, if_neg hc2]
      exact hno b1 hb1 b2 hb2 hne

lemma clash_applied_transfer {p : BookingUpdate} {existing x : Booking}
    (hint : hasIntervalField p = false) (hstat : statusInvalid p = false)
    (hconf : p.status = some "confirmed" → existing.status ≠ "cancelled")
    (hcl : Clashing (applyFields p existing) x) : Clashing existing x := by
  obtain ⟨htn, hdn, hsn, hen⟩ := interval_fields_none hint
  obtain ⟨h1, h2, h3, h4, h5, h6⟩ := hcl
  simp only [applyFields, htn, hdn, hsn, hen, Option.getD_none] at h1 h3 h4 h5 h6
  refine ⟨?_, h2, h3, h4, h5, h6⟩
  cases hps : p.status with
  | none => rw [hps] at h1; simpa using h1
  | some s =>
    rcases status_valid_of_not_invalid hps hstat with rfl | rfl
    · exact hconf hps
    · rw [hps] at h1; simp at h1

lemma noOverlap_applied_noint {db : DB} {bid : String} {p : BookingUpdate}
    {existing : Booking}
    (hfind : findBooking db bid = some existing)
    (hnodup : IdsNodup db) (hno : NoOverlap db)
    (hint : hasIntervalField p = false)
    (hstat : statusInvalid p = false)
    (hconf : p.status = some "confirmed" → existing.status ≠ "cancelled") :
    NoOverlap { db with bookings := appliedBookings db bid p } := by
  intro b1' h1 b2' h2 hne
  simp only [appliedBookings, List.mem_map] at h1 h2
  obtain ⟨b1, hb1, hb1e⟩ := h1
  obtain ⟨b2, hb2, hb2e⟩ := h2
  subst hb1e
  subst hb2e
  rw [applied_elem_id, applied_elem_id] at hne
  by_cases hc1 : (b1.id == bid) = true
  · have hb1ex : b1 = existing :=
      eq_existing_of_mem hfind hnodup hb1 (by simpa using hc1)
    by_cases hc2 : (b2.id == bid) = true
    · exact absurd (by rw [beq_iff_eq] at hc1 hc2; rw [hc1, hc2]) hne
    · rw [if_pos hc1, if_neg hc2]
      subst hb1ex
      exact fun hcl =>
        hno b1 hb1 b2 hb2 hne (clash_applied_transfer hint hstat hconf hcl)
  · by_cases hc2 : (b2.id == bid) = true
    · have hb2ex : b2 = existing :=
        eq_existing_of_mem hfind hnodup hb2 (by simpa using hc2)
      rw [if_neg hc1, if_pos hc2]
      subst hb2ex
      exact fun hcl =>
        hno b1 hb1 b2 hb2 hne
          (clash_applied_transfer hint hstat hconf hcl.symm).symm
    · rw [if_neg hc1, if_neg hc2]
      exact hno b1 hb1 b2 hb2 hne

lemma update_preserves_inv {db : DB} (bid : String) (p : BookingUpdate)
    (u : User)
    (hsafe : ¬ SilentReactivation db bid p) (hinv : Inv db) :
    Inv (update_booking db bid p u).2 := by
  rcases update_snd_cases db bid p u with heq | ⟨existing, hfind, hstat, heq, hchk⟩
  · rw [heq]; exact hinv
  · rw [heq]
    refine ⟨idsNodup_applied bid p hinv.1, ?_⟩
    by_cases hint : hasIntervalField p = true
    · exact noOverlap_applied_checked hfind hinv.1 hinv.2 (hchk hint)
    · rw [Bool.not_eq_true] at hint
      apply noOverlap_applied_noint hfind hinv.1 hinv.2 hint hstat
      intro hps
      by_contra hcan
      exact hsafe ⟨hint, hps, existing, hfind, hcan⟩

lemma delete_preserves_inv {db : DB} (bid : String) (u : User) (hinv : Inv db) :
    Inv (delete_booking db bid u).2 := by
  rcases delete_snd_cases db bid u with heq | heq <;> rw [heq]
  · exact hinv
  · constructor
    · exact List.Nodup.sublist ((List.filter_sublist _).map Booking.id) hinv.1
    · intro b1 h1 b2 h2 hne
      simp only [List.mem_filter] at h1 h2
      exact hinv.2 b1 h1.1 b2 h2.1 hne

lemma guardedStep_preserves_inv {db db' : DB} (h : GuardedStep db db')
    (hinv : Inv db) : Inv db' := by
  cases h with
  | create u p bid cat hfresh => exact create_preserves_inv u p cat hfresh hinv
  | update bid p u hsafe => exact update_preserves_inv bid p u hsafe hinv
  | delete bid u => exact delete_preserves_inv bid u hinv

lemma inv_of_guardedReachable {db : DB} (h : GuardedReachable db) : Inv db := by
  induction h with
  | init users tables =>
    exact ⟨by simp [IdsNodup], by intro b1 h1; simp at h1⟩
  | step _ hs ih => exact guardedStep_preserves_inv hs ih

/-! Branch-path equations for the operations. -/

lemma ownershipDenied_iff {u : User} {b : Booking} :
    ownershipDenied u b = true ↔
      (u.role ≠ "admin" ∧ u.role ≠ "staff" ∧ b.user_id ≠ u.id) := by
  simp [ownershipDenied, and_assoc]

lemma excludeClause_some_iff {x : String} (hx : x ≠ "") (b : Booking) :
    excludeClause (some x) b = true ↔ b.id ≠ x := by
  have hne : x.isEmpty = false := by
    cases hxe : x.isEmpty
    · rfl
    · exact absurd ((String.isEmpty_iff x).mp hxe) hx
  unfold excludeClause
  simp [hne]

lemma conflictsWith_self_excluded {tid d s e x : String} {b : Booking}
    (hx : x ≠ "") (hb : b.id = x) :
    conflictsWith tid d s e (some x) b = false := by
  have hne : x.isEmpty = false := by
    cases hxe : x.isEmpty
    · rfl
    · exact absurd ((String.isEmpty_iff x).mp hxe) hx
  unfold conflictsWith excludeClause
  simp [hne, hb]

lemma status_none_of_no_fields {p : BookingUpdate} (h : hasAnyField p = false) :
    p.status = none := by
  unfold hasAnyField at h
  cases hps : p.status <;> simp_all

lemma delete_booking_eq {db : DB} {bid : String} {u : User} {existing : Booking}
    (hfind : findBooking db bid = some existing)
    (hauth : ownershipDenied u existing = false) :
    delete_booking db bid u =
      (.ok existing,
        { db with bookings := db.bookings.filter (fun b => !(b.id == bid)) }) := by
  unfold delete_booking
  rw [hfind]
  dsimp only
  rw [if_neg (by simp [hauth])]

lemma create_booking_eq_ok {db : DB} {u : User} {p : BookingCreate}
    {bid cat : String} {t : RTable}
    (hfind : findTable db p.table_id = some t)
    (hcap : ¬ p.guests > t.capacity)
    (hchk : check_booking_conflict db.bookings p.table_id p.date p.start_time
      p.end_time none = none) :
    create_booking db u p bid cat =
      (.ok (newBooking u p bid cat),
        { db with bookings := db.bookings ++ [newBooking u p bid cat] }) := by
  unfold create_booking
  rw [hfind]
  dsimp only
  rw [if_neg hcap, hchk]

lemma create_booking_eq_capacity {db : DB} {u : User} {p : BookingCreate}
    {bid cat : String} {t : RTable}
    (hfind : findTable db p.table_id = some t)
    (hover : p.guests > t.capacity) :
    create_booking db u p bid cat =
      (.error (.capacityExceeded t.capacity p.guests), db) := by
  unfold create_booking
  rw [hfind]
  dsimp only
  rw [if_pos hover]

lemma update_booking_eq_of_checked {db : DB} {bid : String} {p : BookingUpdate}
    {u : User} {existing : Booking}
    (hfind : findBooking db bid = some existing)
    (hauth : ownershipDenied u existing = false)
    (hstat : statusInvalid p = false)
    (hany : hasAnyField p = true)
    (hint : hasIntervalField p = true) :
    update_booking db bid p u =
      (match check_booking_conflict db.bookings (p.table_id.getD existing.table_id)
          (p.date.getD existing.date) (p.start_time.getD existing.start_time)
          (p.end_time.getD existing.end_time) (some bid) with
        | some c => (.error (.timeConflict c.id), db)
        | none => (.ok bid, { db with bookings := appliedBookings db bid p })) := by
  unfold update_booking
  rw [hfind]
  dsimp only
  rw [if_neg (by simp [hauth]), if_neg (by simp [hstat]),
    if_neg (by simp [hany]), if_pos hint]

lemma update_booking_eq_of_noint {db : DB} {bid : String} {p : BookingUpdate}
    {u : User} {existing : Booking}
    (hfind : findBooking db bid = some existing)
    (hauth : ownershipDenied u existing = false)
    (hstat : statusInvalid p = false)
    (hany : hasAnyField p = true)
    (hint : hasIntervalField p = false) :
    update_booking db bid p u =
      (.ok bid, { db with bookings := appliedBookings db bid p }) := by
  unfold update_booking
  rw [hfind]
  dsimp only
  rw [if_neg (by simp [hauth]), if_neg (by simp [hstat]),
    if_neg (by simp [hany]), if_neg (by simp [hint])]

lemma update_booking_eq_noFields {db : DB} {bid : String} {p : BookingUpdate}
    {u : User} {existing : Booking}
    (hfind : findBooking db bid = some existing)
    (hauth : ownershipDenied u existing = false)
    (hempty : hasAnyField p = false) :
    update_booking db bid p u = (.error .noFields, db) := by
  have hstat : statusInvalid p = false := by
    unfold statusInvalid
    rw [status_none_of_no_fields hempty]
  unfold update_booking
  rw [hfind]
  dsimp only
  rw [if_neg (by simp [hauth]), if_neg (by simp [hstat]),
    if_pos (by simp [hempty])]

lemma update_ok_implies {db : DB} {bid : String} {p : BookingUpdate} {u : User}
    {r : String} {db' : DB}
    (h : update_booking db bid p u = (.ok r, db')) :
    db' = { db with bookings := appliedBookings db bid p } := by
  unfold update_booking at h
  cases hfind : findBooking db bid with
  | none => rw [hfind] at h; simp at h
  | some existing =>
    rw [hfind] at h
    dsimp only at h
    by_cases hden : ownershipDenied u existing = true
    · rw [if_pos hden] at h; simp at h
    · rw [if_neg hden] at h
      by_cases hstat : statusInvalid p = true
      · rw [if_pos hstat] at h; simp at h
      · rw [if_neg hstat] at h
        by_cases hany : (!hasAnyField p) = true
        · rw [if_pos hany] at h; simp at h
        · rw [if_neg hany] at h
          by_cases hint : hasIntervalField p = true
          · rw [if_pos hint] at h
            cases hchk : check_booking_conflict db.bookings
                (p.table_id.getD existing.table_id) (p.date.getD existing.date)
                (p.start_time.getD existing.start_time)
                (p.end_time.getD existing.end_time) (some bid) with
            | some c => rw [hchk] at h; simp at h
            | none =>
              rw [hchk] at h
              simp only [Prod.mk.injEq, Except.ok.injEq] at h
              exact h.2.symm
          · rw [if_neg hint] at h
            simp only [Prod.mk.injEq, Except.ok.injEq] at h
            exact h.2.symm

lemma update_booking_ignores_tables (db : DB) (tables' : List RTable)
    (bid : String) (p : BookingUpdate) (u : User) :
    (update_booking { db with tables := tables' } bid p u).1
        = (update_booking db bid p u).1
      ∧ (update_booking { db with tables := tables' } bid p u).2.bookings
        = (update_booking db bid p u).2.bookings := by
  have e1 : findBooking { db with tables := tables' } bid = findBooking db bid := rfl
  unfold update_booking
  rw [e1]
  cases findBooking db bid with
  | none => exact ⟨by first | rfl | trivial, by first | rfl | trivial⟩
  | some existing =>
    dsimp only
    by_cases hden : ownershipDenied u existing = true
    · simp only [if_pos hden]; exact ⟨by first | rfl | trivial, by first | rfl | trivial⟩
    · simp only [if_neg hden]
      by_cases hstat : statusInvalid p = true
      · simp only [if_pos hstat]; exact ⟨by first | rfl | trivial, by first | rfl | trivial⟩
      · simp only [if_neg hstat]
        by_cases hany : (!hasAnyField p) = true
        · simp only [if_pos hany]; exact ⟨by first | rfl | trivial, by first | rfl | trivial⟩
        · simp only [if_neg hany]
          by_cases hint : hasIntervalField p = true
          · simp only [if_pos hint]
            cases check_booking_conflict db.bookings
                (p.table_id.getD existing.table_id) (p.date.getD existing.date)
                (p.start_time.getD existing.start_time)
                (p.end_time.getD existing.end_time) (some bid) with
            | some c => exact ⟨by first | rfl | trivial, by first | rfl | trivial⟩
            | none => exact ⟨by first | rfl | trivial, by first | rfl | trivial⟩
          · simp only [if_neg hint]
            exact ⟨by first | rfl | trivial, by first | rfl | trivial⟩

/-! Concrete data used by witnesses and counterexamples. -/

/-- A table with capacity 4, as in the spec scenario. -/
def tableT : RTable := { id := "t1", number := 1, capacity := 4, location := none }

/-- A customer who owns the sample booking. -/
def alice : User :=
  { id := "u1", name := "Alice", email := "alice@example.com",
    role := "customer", phone := "+6281234567890" }

/-- A different customer, not the owner. -/
def bob : User :=
  { id := "u2", name := "Bob", email := "bob@example.com",
    role := "customer", phone := "+6280000000000" }

/-- The spec-scenario booking: table T, 2024-06-01, 18:00-19:00. -/
def booking1 : Booking :=
  { id := "b1", user_id := "u1", table_id := "t1", date := "2024-06-01",
    start_time := "18:00", end_time := "19:00", guests := 2,
    status := "confirmed", created_at := "2024-05-01T10:00:00+07:00" }

/-- Store with one table and one confirmed booking. -/
def dbOne : DB := { users := [alice], tables := [tableT], bookings := [booking1] }

/-- Empty store used as the start of the reactivation run. -/
def cexDb0 : DB := { users := [alice], tables := [tableT], bookings := [] }

/-- First create request of the reactivation run: 18:00-19:00. -/
def cexPay1 : BookingCreate :=
  { table_id := "t1", date := "2024-06-01", start_time := "18:00",
    end_time := "19:00", guests := 2 }

/-- Second create request of the reactivation run: 18:30-19:30, properly
overlapping the first. -/
def cexPay2 : BookingCreate :=
  { table_id := "t1", date := "2024-06-01", start_time := "18:30",
    end_time := "19:30", guests := 2 }

/-- State after creating booking b1. -/
def cexDb1 : DB := (create_booking cexDb0 alice cexPay1 "b1" "c1").2

/-- State after cancelling b1 through a status-only update. -/
def cexDb2 : DB :=
  (update_booking cexDb1 "b1" { status := some "cancelled" } alice).2

/-- State after creating the overlapping booking b2 (allowed: b1 cancelled). -/
def cexDb3 : DB := (create_booking cexDb2 alice cexPay2 "b2" "c2").2

/-- State after silently reactivating b1 through a status-only update. -/
def cexDb4 : DB :=
  (update_booking cexDb3 "b1" { status := some "confirmed" } alice).2

/-- State used by the frame-property witness. -/
def updatedOne : DB :=
  (update_booking dbOne "b1" { guests := some 3 } alice).2

/-- Update payload moving the sample booking to the touching slot. -/
def payShift : BookingUpdate :=
  { start_time := some "19:00", end_time := some "20:00" }

/-! Claim theorems. -/

/-- C1 (amended): in every state reachable from a bookings-empty store by any
sequence of `create_booking`, `update_booking` and `delete_booking` calls in
which no update silently reactivates a cancelled booking — i.e. no update
sets `status` to `confirmed` on a booking stored as `cancelled` while
supplying none of table/date/start/end — no two distinct bookings with
status ≠ 'cancelled' on the same table and date have intersecting half-open
`[start, end)` intervals. -/
theorem noOverlap_of_reachable_guarded (db : DB) (h : GuardedReachable db) :
    NoOverlap db :=
  (inv_of_guardedReachable h).2

/-- Witness for C1: the theorem applied to the concrete one-create run. -/
theorem noOverlap_of_reachable_guarded_witness : NoOverlap cexDb1 :=
  noOverlap_of_reachable_guarded cexDb1
    ((GuardedReachable.init [alice] [tableT]).step
      (GuardedStep.create cexDb0 alice cexPay1 "b1" "c1" (by decide)))

/-- C1 counterexample: the four-call run create b1 (18:00-19:00), cancel b1 by
a status-only update, create overlapping b2 (18:30-19:30), then set b1's
status back to `confirmed`, is reachable, and its final state has two
confirmed bookings on the same table and date with intersecting intervals:
the status-only reactivation skips the conflict re-check. -/
theorem noOverlap_invariant_counterexample :
    Reachable cexDb4 ∧ ¬ NoOverlap cexDb4 := by
  constructor
  · exact ((((Reachable.init [alice] [tableT]).step
      (Step.create cexDb0 alice cexPay1 "b1" "c1" (by decide))).step
      (Step.update cexDb1 "b1" { status := some "cancelled" } alice)).step
      (Step.create cexDb2 alice cexPay2 "b2" "c2" (by decide))).step
      (Step.update cexDb3 "b1" { status := some "confirmed" } alice)
  · decide

/-- C2: the conflict predicate used by booking creation is exactly the strict
half-open intersection test — an existing booking conflicts iff it is
non-cancelled, on the same table and date, and `existing.start < req.end`
and `existing.end > req.start` in the stored text order. When such a
booking exists the create fails with a 409 time-conflict error and the
store is unchanged; when none exists (in particular when the request's
start equals an existing booking's end) the create succeeds. -/
theorem create_conflict_is_halfopen_test (db : DB) (u : User)
    (p : BookingCreate) (bid cat : String) (t : RTable)
    (hfind : findTable db p.table_id = some t)
    (hcap : p.guests ≤ t.capacity) :
    ((check_booking_conflict db.bookings p.table_id p.date p.start_time
        p.end_time none).isSome = true ↔
      ∃ b ∈ db.bookings, b.table_id = p.table_id ∧ b.date = p.date ∧
        strLt b.start_time p.end_time = true ∧
        strLt p.start_time b.end_time = true ∧ b.status ≠ "cancelled")
    ∧ ((∃ b ∈ db.bookings, b.table_id = p.table_id ∧ b.date = p.date ∧
          strLt b.start_time p.end_time = true ∧
          strLt p.start_time b.end_time = true ∧ b.status ≠ "cancelled") →
        ∃ cid, create_booking db u p bid cat = (.error (.timeConflict cid), db)
          ∧ (ApiError.timeConflict cid).statusCode = 409)
    ∧ ((¬ ∃ b ∈ db.bookings, b.table_id = p.table_id ∧ b.date = p.date ∧
          strLt b.start_time p.end_time = true ∧
          strLt p.start_time b.end_time = true ∧ b.status ≠ "cancelled") →
        create_booking db u p bid cat =
          (.ok (newBooking u p bid cat),
            { db with bookings := db.bookings ++ [newBooking u p bid cat] })) := by
  have hpred : ∀ b : Booking,
      conflictsWith p.table_id p.date p.start_time p.end_time none b = true ↔
        (b.table_id = p.table_id ∧ b.date = p.date ∧
          strLt b.start_time p.end_time = true ∧
          strLt p.start_time b.end_time = true ∧ b.status ≠ "cancelled") := by
    intro b
    rw [conflictsWith_eq_true_iff]
    simp [excludeClause_none]
  refine ⟨?_, ?_, ?_⟩
  · rw [check_isSome_iff]
    exact ⟨fun ⟨b, hb, hcb⟩ => ⟨b, hb, (hpred b).mp hcb⟩,
      fun ⟨b, hb, hPb⟩ => ⟨b, hb, (hpred b).mpr hPb⟩⟩
  · rintro ⟨b, hb, hPb⟩
    have hsome : (check_booking_conflict db.bookings p.table_id p.date
        p.start_time p.end_time none).isSome = true :=
      (check_isSome_iff _ _ _ _ _ _).mpr ⟨b, hb, (hpred b).mpr hPb⟩
    cases hchk : check_booking_conflict db.bookings p.table_id p.date
        p.start_time p.end_time none with
    | none => rw [hchk] at hsome; simp at hsome
    | some c =>
      refine ⟨c.id, ?_, rfl⟩
      unfold create_booking
      rw [hfind]
      dsimp only
      rw [if_neg (by omega : ¬ p.guests > t.capacity), hchk]
  · intro hnone
    have hchk : check_booking_conflict db.bookings p.table_id p.date
        p.start_time p.end_time none = none := by
      rw [check_none_iff]
      intro b hb
      cases hcb : conflictsWith p.table_id p.date p.start_time p.end_time none b
      · rfl
      · exact absurd ⟨b, hb, (hpred b).mp hcb⟩ hnone
    exact create_booking_eq_ok hfind (by omega) hchk

/-- Witness for C2: the spec scenario — table T holds 18:00-19:00, a request
for 18:30-19:30 fails with the 409 time-conflict error, unchanged store. -/
theorem create_conflict_is_halfopen_test_witness :
    ∃ cid, create_booking dbOne alice
        { table_id := "t1", date := "2024-06-01", start_time := "18:30",
          end_time := "19:30", guests := 3 } "b9" "c9"
      = (.error (.timeConflict cid), dbOne)
      ∧ (ApiError.timeConflict cid).statusCode = 409 :=
  (create_conflict_is_halfopen_test dbOne alice
      { table_id := "t1", date := "2024-06-01", start_time := "18:30",
        end_time := "19:30", guests := 3 } "b9" "c9" tableT (by decide)
      (by decide)).2.1
    ⟨booking1, by decide, by decide⟩

/-- C3 counterexample: with table capacity 4 and a stored booking of 2 guests,
updating the booking's guest count to 5 succeeds and stores guests = 5,
although 5 exceeds the table's capacity — so update_booking does not
re-validate guests against the table's capacity. -/
theorem capacity_on_update_counterexample :
    update_booking dbOne "b1" { guests := some 5 } alice
        = (.ok "b1", { dbOne with bookings := [{ booking1 with guests := 5 }] })
      ∧ findTable dbOne booking1.table_id = some tableT
      ∧ booking1.guests ≤ tableT.capacity
      ∧ 5 > tableT.capacity := by
  refine ⟨?_, by decide, by decide, by decide⟩
  rfl

/-- C3 (amended): the guests ≤ capacity constraint is enforced at booking
creation — create_booking fails with a 400 error and persists nothing when
guests > capacity — but update_booking performs no capacity validation at
all: its response and its effect on the stored bookings are independent of
the stored tables. -/
theorem capacity_checked_at_creation_only (db : DB) (u : User)
    (p : BookingCreate) (bid cat : String) (t : RTable)
    (hfind : findTable db p.table_id = some t)
    (hover : p.guests > t.capacity) :
    create_booking db u p bid cat
        = (.error (.capacityExceeded t.capacity p.guests), db)
      ∧ (ApiError.capacityExceeded t.capacity p.guests).statusCode = 400
      ∧ ∀ (bid2 : String) (q : BookingUpdate) (u2 : User)
          (tables' : List RTable),
          (update_booking { db with tables := tables' } bid2 q u2).1
              = (update_booking db bid2 q u2).1
            ∧ (update_booking { db with tables := tables' } bid2 q u2).2.bookings
              = (update_booking db bid2 q u2).2.bookings :=
  ⟨create_booking_eq_capacity hfind hover, rfl,
    fun bid2 q u2 tables' => update_booking_ignores_tables db tables' bid2 q u2⟩

/-- Witness for C3 (amended): creating a 9-guest booking on the capacity-4
table fails with the capacity error and leaves the store unchanged. -/
theorem capacity_checked_at_creation_only_witness :
    create_booking dbOne alice
        { table_id := "t1", date := "2024-06-02", start_time := "10:00",
          end_time := "11:00", guests := 9 } "b9" "c9"
      = (.error (.capacityExceeded 4 9), dbOne) :=
  (capacity_checked_at_creation_only dbOne alice
      { table_id := "t1", date := "2024-06-02", start_time := "10:00",
        end_time := "11:00", guests := 9 } "b9" "c9" tableT (by decide)
      (by decide)).1

/-- C4: for an authorized partial update of an existing booking with a valid
non-empty field set, the conflict check re-runs iff at least one of
table/date/start/end is present in the payload; the check compares the
merged values (payload over stored) against every other booking, excluding
the booking itself; on a conflict the call fails with the 409 error and the
store is unchanged; otherwise exactly the present fields are written and
absent fields keep their stored values (`appliedBookings`/`applyFields`). -/
theorem update_partial_fields_semantics (db : DB) (bid : String)
    (p : BookingUpdate) (u : User) (existing : Booking)
    (hbid : bid ≠ "")
    (hfind : findBooking db bid = some existing)
    (hauth : ownershipDenied u existing = false)
    (hstat : statusInvalid p = false)
    (hany : hasAnyField p = true) :
    (hasIntervalField p = true →
      ((∃ c ∈ db.bookings, c.id ≠ bid ∧ c.status ≠ "cancelled" ∧
          c.table_id = p.table_id.getD existing.table_id ∧
          c.date = p.date.getD existing.date ∧
          strLt c.start_time (p.end_time.getD existing.end_time) = true ∧
          strLt (p.start_time.getD existing.start_time) c.end_time = true) →
        ∃ cid, update_booking db bid p u = (.error (.timeConflict cid), db))
      ∧ ((∀ c ∈ db.bookings, c.id ≠ bid → ¬(c.status ≠ "cancelled" ∧
            c.table_id = p.table_id.getD existing.table_id ∧
            c.date = p.date.getD existing.date ∧
            strLt c.start_time (p.end_time.getD existing.end_time) = true ∧
            strLt (p.start_time.getD existing.start_time) c.end_time = true)) →
          update_booking db bid p u =
            (.ok bid, { db with bookings := appliedBookings db bid p })))
    ∧ (hasIntervalField p = false →
        update_booking db bid p u =
          (.ok bid, { db with bookings := appliedBookings db bid p })) := by
  refine ⟨fun hint => ⟨?_, ?_⟩, fun hint =>
    update_booking_eq_of_noint hfind hauth hstat hany hint⟩
  · rintro ⟨c, hc, hcid, h1, h2, h3, h4, h5⟩
    have hcb : conflictsWith (p.table_id.getD existing.table_id)
        (p.date.getD existing.date) (p.start_time.getD existing.start_time)
        (p.end_time.getD existing.end_time) (some bid) c = true :=
      (conflictsWith_eq_true_iff _ _ _ _ _ _).mpr
        ⟨h2, h3, h4, h5, h1, (excludeClause_some_iff hbid c).mpr hcid⟩
    have hsome : (check_booking_conflict db.bookings
        (p.table_id.getD existing.table_id) (p.date.getD existing.date)
        (p.start_time.getD existing.start_time)
        (p.end_time.getD existing.end_time) (some bid)).isSome = true :=
      (check_isSome_iff _ _ _ _ _ _).mpr ⟨c, hc, hcb⟩
    cases hchk : check_booking_conflict db.bookings
        (p.table_id.getD existing.table_id) (p.date.getD existing.date)
        (p.start_time.getD existing.start_time)
        (p.end_time.getD existing.end_time) (some bid) with
    | none => rw [hchk] at hsome; simp at hsome
    | some c' =>
      refine ⟨c'.id, ?_⟩
      rw [update_booking_eq_of_checked hfind hauth hstat hany hint, hchk]
  · intro hclear
    have hchk : check_booking_conflict db.bookings
        (p.table_id.getD existing.table_id) (p.date.getD existing.date)
        (p.start_time.getD existing.start_time)
        (p.end_time.getD existing.end_time) (some bid) = none := by
      rw [check_none_iff]
      intro c hc
      by_cases hcid : c.id = bid
      · exact conflictsWith_self_excluded hbid hcid
      · cases hcb : conflictsWith (p.table_id.getD existing.table_id)
            (p.date.getD existing.date) (p.start_time.getD existing.start_time)
            (p.end_time.getD existing.end_time) (some bid) c
        · rfl
        · obtain ⟨h1, h2, h3, h4, h5, _⟩ :=
            (conflictsWith_eq_true_iff _ _ _ _ _ _).mp hcb
          exact absurd ⟨h5, h1, h2, h3, h4⟩ (hclear c hc hcid)
    rw [update_booking_eq_of_checked hfind hauth hstat hany hint, hchk]

/-- Witness for C4: shifting the sample booking to the touching slot
19:00-20:00 re-runs the check (times present), finds no conflict, and
writes exactly the two supplied time fields. -/
theorem update_partial_fields_semantics_witness :
    update_booking dbOne "b1" payShift alice
      = (.ok "b1",
          { dbOne with bookings := appliedBookings dbOne "b1" payShift }) :=
  ((update_partial_fields_semantics dbOne "b1" payShift alice booking1
      (by decide) (by decide) (by decide) (by decide) (by decide)).1
    (by decide)).2 (by decide)

/-- C5: with the target booking present, update_booking (for every payload)
and delete_booking fail with the 403 Forbidden error iff the caller's role
is neither admin nor staff and the caller is not the booking's owner; in
particular an admin or staff caller is never denied on ownership grounds. -/
theorem ownership_forbidden_iff_thm (db : DB) (bid : String) (u : User)
    (existing : Booking)
    (hfind : findBooking db bid = some existing) :
    (∀ p : BookingUpdate, ((update_booking db bid p u).1 = .error .forbidden ↔
      (u.role ≠ "admin" ∧ u.role ≠ "staff" ∧ existing.user_id ≠ u.id)))
    ∧ ((delete_booking db bid u).1 = .error .forbidden ↔
      (u.role ≠ "admin" ∧ u.role ≠ "staff" ∧ existing.user_id ≠ u.id))
    ∧ ApiError.forbidden.statusCode = 403 := by
  by_cases hden : ownershipDenied u existing = true
  · have hcond := ownershipDenied_iff.mp hden
    refine ⟨fun p => iff_of_true ?_ hcond, iff_of_true ?_ hcond, rfl⟩
    · unfold update_booking
      rw [hfind]
      dsimp only
      rw [if_pos hden]
    · unfold delete_booking
      rw [hfind]
      dsimp only
      rw [if_pos hden]
  · rw [Bool.not_eq_true] at hden
    have hcond : ¬ (u.role ≠ "admin" ∧ u.role ≠ "staff" ∧
        existing.user_id ≠ u.id) := by
      rw [← ownershipDenied_iff]
      simp [hden]
    refine ⟨fun p => iff_of_false ?_ hcond, iff_of_false ?_ hcond, rfl⟩
    · by_cases hstat : statusInvalid p = true
      · unfold update_booking
        rw [hfind]
        dsimp only
        rw [if_neg (by simp [hden]), if_pos hstat]
        simp
      · rw [Bool.not_eq_true] at hstat
        by_cases hany : hasAnyField p = true
        · by_cases hint : hasIntervalField p = true
          · rw [update_booking_eq_of_checked hfind hden hstat hany hint]
            cases hchk : check_booking_conflict db.bookings
                (p.table_id.getD existing.table_id) (p.date.getD existing.date)
                (p.start_time.getD existing.start_time)
                (p.end_time.getD existing.end_time) (some bid) with
            | some c => simp
            | none => simp
          · rw [Bool.not_eq_true] at hint
            rw [update_booking_eq_of_noint hfind hden hstat hany hint]
            simp
        · rw [Bool.not_eq_true] at hany
          rw [update_booking_eq_noFields hfind hden hany]
          simp
    · rw [delete_booking_eq hfind hden]
      simp

/-- Witness for C5: customer Bob, not the owner, is denied deleting Alice's
booking with the Forbidden error. -/
theorem ownership_forbidden_iff_thm_witness :
    (delete_booking dbOne "b1" bob).1 = .error .forbidden :=
  ((ownership_forbidden_iff_thm dbOne "b1" bob booking1 (by decide)).2.1).mpr
    (by decide)

/-- C6: calling update_booking on an existing booking with a payload that
contains none of the recognized fields fails with the 400 Validation error
and returns the store unchanged, for any caller passing the ownership
check. -/
theorem empty_update_rejected (db : DB) (bid : String) (p : BookingUpdate)
    (u : User) (existing : Booking)
    (hfind : findBooking db bid = some existing)
    (hauth : ownershipDenied u existing = false)
    (hempty : hasAnyField p = false) :
    update_booking db bid p u = (.error .noFields, db)
      ∧ ApiError.noFields.statusCode = 400 :=
  ⟨update_booking_eq_noFields hfind hauth hempty, rfl⟩

/-- Witness for C6: the empty payload on the sample booking fails with the
no-fields error and leaves the store unchanged. -/
theorem empty_update_rejected_witness :
    update_booking dbOne "b1" {} alice = (.error .noFields, dbOne) :=
  (empty_update_rejected dbOne "b1" {} alice booking1 (by decide) (by decide)
    (by decide)).1

/-- C7: cancelled bookings are excluded from the overlap scan — after a
booking is removed via delete_booking, a create for exactly its former
table, date and `[start, end)` interval does not hit a time conflict and
succeeds, provided the table exists, the guest count is within capacity,
and no other booking conflicts with that interval. -/
theorem delete_then_recreate_succeeds (db : DB) (bid : String) (u u2 : User)
    (ex : Booking) (t : RTable) (g : Nat) (bid2 cat2 : String)
    (hfind : findBooking db bid = some ex)
    (hauth : ownershipDenied u ex = false)
    (htab : findTable db ex.table_id = some t)
    (hcap : g ≤ t.capacity)
    (hclear : ∀ c ∈ db.bookings, c.id ≠ bid →
      ¬(c.status ≠ "cancelled" ∧ c.table_id = ex.table_id ∧ c.date = ex.date ∧
        strLt c.start_time ex.end_time = true ∧
        strLt ex.start_time c.end_time = true)) :
    (delete_booking db bid u).1 = .ok ex ∧
    (create_booking (delete_booking db bid u).2 u2
        { table_id := ex.table_id, date := ex.date,
          start_time := ex.start_time, end_time := ex.end_time, guests := g }
        bid2 cat2).1
      = .ok (newBooking u2
          { table_id := ex.table_id, date := ex.date,
            start_time := ex.start_time, end_time := ex.end_time, guests := g }
          bid2 cat2) := by
  have hdel := delete_booking_eq hfind hauth
  have hchk : check_booking_conflict
      (db.bookings.filter (fun b => !(b.id == bid))) ex.table_id ex.date
      ex.start_time ex.end_time none = none := by
    rw [check_none_iff]
    intro c hc
    rw [List.mem_filter] at hc
    obtain ⟨hmem, hne⟩ := hc
    have hcid : c.id ≠ bid := by simpa using hne
    cases hcb : conflictsWith ex.table_id ex.date ex.start_time ex.end_time
        none c
    · rfl
    · obtain ⟨h1, h2, h3, h4, h5, _⟩ :=
        (conflictsWith_eq_true_iff _ _ _ _ _ _).mp hcb
      exact absurd ⟨h5, h1, h2, h3, h4⟩ (hclear c hmem hcid)
  constructor
  · rw [hdel]
  · rw [hdel]
    rw [create_booking_eq_ok htab (by show ¬ g > t.capacity; omega) hchk]

/-- Witness for C7: deleting the sample booking then recreating its exact
interval on the same table and date succeeds. -/
theorem delete_then_recreate_succeeds_witness :
    (delete_booking dbOne "b1" alice).1 = .ok booking1 ∧
    (create_booking (delete_booking dbOne "b1" alice).2 alice
        { table_id := booking1.table_id, date := booking1.date,
          start_time := booking1.start_time, end_time := booking1.end_time,
          guests := 2 } "b9" "c9").1
      = .ok (newBooking alice
          { table_id := booking1.table_id, date := booking1.date,
            start_time := booking1.start_time, end_time := booking1.end_time,
            guests := 2 } "b9" "c9") :=
  delete_then_recreate_succeeds dbOne "b1" alice alice booking1 tableT 2
    "b9" "c9" (by decide) (by decide) (by decide) (by decide) (by decide)

/-- C8: authorization decisions use the live user record — get_current_user
never consults the token's role claim: two decoded payloads with the same
user_id and arbitrary role claims resolve identically, and every endpoint
behind the dependency produces the same outcome and result. -/
theorem token_role_claim_never_consulted (p1 p2 : TokenPayload)
    (users : List User) (h : p1.user_id = p2.user_id) :
    get_current_user (.ok p1) users = get_current_user (.ok p2) users
    ∧ ∀ (α : Type) (handler : User → α),
        withCurrentUser (.ok p1) users handler
          = withCurrentUser (.ok p2) users handler := by
  have hg : get_current_user (.ok p1) users
      = get_current_user (.ok p2) users := by
    unfold get_current_user
    dsimp only
    rw [h]
  exact ⟨hg, fun α handler => by unfold withCurrentUser; rw [hg]⟩

/-- Witness for C8: two tokens for user u1 whose role claims differ (admin vs
customer) resolve to the same outcome. -/
theorem token_role_claim_never_consulted_witness :
    get_current_user (.ok { user_id := some "u1", role := "admin" }) [alice]
      = get_current_user
          (.ok { user_id := some "u1", role := "customer" }) [alice] :=
  (token_role_claim_never_consulted ⟨some "u1", "admin"⟩
    ⟨some "u1", "customer"⟩ [alice] rfl).1

/-- C9: notification dispatch is best-effort — for create, update and delete,
the endpoint's response and post-state equal those of the bare store
mutation, whatever the SMS call does: missing API key, HTTP status error,
timeout, any other caught failure, success, or an exception raised out of
the awaited call. -/
theorem notification_best_effort (db : DB) (u : User) (p : BookingCreate)
    (bid cat : String) (raised raised' : Option String)
    (o o' : SmsOutcome) (bid2 : String) (q : BookingUpdate) (u2 : User)
    (bid3 : String) (u3 : User) :
    create_booking_endpoint db u p bid cat raised o
        = create_booking db u p bid cat
    ∧ create_booking_endpoint db u p bid cat raised o
        = create_booking_endpoint db u p bid cat raised' o'
    ∧ update_booking_endpoint db bid2 q u2 raised o
        = update_booking db bid2 q u2
    ∧ update_booking_endpoint db bid2 q u2 raised o
        = update_booking_endpoint db bid2 q u2 raised' o'
    ∧ delete_booking_endpoint db bid3 u3 raised o
        = delete_booking db bid3 u3
    ∧ delete_booking_endpoint db bid3 u3 raised o
        = delete_booking_endpoint db bid3 u3 raised' o' :=
  ⟨rfl, rfl, rfl, rfl, rfl, rfl⟩

/-- C10: every accepted update leaves the booking identifier, owning user id
and creation timestamp of every stored row unchanged, leaves users and
tables untouched, and keeps every other booking row exactly as it was —
only table_id/date/start_time/end_time/guests/status are ever written. -/
theorem update_frame_property (db : DB) (bid : String) (p : BookingUpdate)
    (u : User) (r : String) (db' : DB)
    (h : update_booking db bid p u = (.ok r, db')) :
    db'.users = db.users ∧ db'.tables = db.tables ∧
    db'.bookings.map (fun b => (b.id, b.user_id, b.created_at))
      = db.bookings.map (fun b => (b.id, b.user_id, b.created_at)) ∧
    ∀ b ∈ db.bookings, b.id ≠ bid → b ∈ db'.bookings := by
  have hdb' := update_ok_implies h
  subst hdb'
  refine ⟨rfl, rfl, ?_, ?_⟩
  · show (appliedBookings db bid p).map _ = _
    unfold appliedBookings
    rw [List.map_map]
    apply List.map_congr_left
    intro b _
    by_cases hb : (b.id == bid) = true <;>
      simp [Function.comp, hb, applyFields_id, applyFields_user_id,
        applyFields_created_at]
  · intro b hb hne
    show b ∈ appliedBookings db bid p
    unfold appliedBookings
    rw [List.mem_map]
    exact ⟨b, hb, by rw [if_neg (by simp [hne])]⟩

/-- Witness for C10: the accepted guests-only update of the sample booking
keeps ids, owner and creation timestamp, and users/tables. -/
theorem update_frame_property_witness :
    updatedOne.users = dbOne.users ∧ updatedOne.tables = dbOne.tables ∧
    updatedOne.bookings.map (fun b => (b.id, b.user_id, b.created_at))
      = dbOne.bookings.map (fun b => (b.id, b.user_id, b.created_at)) ∧
    ∀ b ∈ dbOne.bookings, b.id ≠ "b1" → b ∈ updatedOne.bookings :=
  update_frame_property dbOne "b1" { guests := some 3 } alice "b1"
    updatedOne rfl

end Booking2Proof
